import Mathlib

/-!
# State pattern music player (`src/State_Pattern/src/main2.cpp`)

A shallow embedding of the program: the player object, its state objects with
their virtual methods, and the text written to `std::cout`.

* A state object is a value: its dynamic class (which selects the virtual
  methods) and the `m_name` field set by its constructor.
* `m_pState` is a raw pointer, so it is an `Option`: `none` is a pointer that
  holds no object (null, or dangling after `delete`).  Dereferencing it is the
  one way a call can fail, so every method returns `Option World`.
* `World` is the program state: the player and everything written to
  `std::cout` so far.  `a << b << c` appends `b` and then `c`.
-/

namespace main2

/-! ## Data model -/

/-- The nested enum `MusicPlayer::State` (lines 38-43). -/
inductive MusicPlayer.State where
  | ST_STOPPED
  | ST_PLAYING
  | ST_PAUSED
  deriving DecidableEq, Repr

/-- The dynamic class of a state object: the non-abstract base class
`MusicPlayerState` (lines 14-32) or one of its three subclasses
(lines 83, 113, 139). -/
inductive StateClass where
  | MusicPlayerState
  | PlayingState
  | PausedState
  | StoppedState
  deriving DecidableEq, Repr

/-- An object of class `MusicPlayerState` or of a subclass: the dynamic class
and the private field `m_name` (line 31). -/
structure MusicPlayerState where
  cls : StateClass
  m_name : String
  deriving DecidableEq, Repr

/-- The class `MusicPlayer` (lines 36-56): its only field is the raw pointer
`m_pState`. -/
structure MusicPlayer where
  m_pState : Option MusicPlayerState
  deriving DecidableEq, Repr

/-- The program state: the player object and the text written to `std::cout`. -/
structure World where
  player : MusicPlayer
  cout : String
  deriving DecidableEq, Repr

/-- The three action methods of `MusicPlayer` (lines 48-50), as a selector. -/
inductive Action where
  | Play
  | Pause
  | Stop
  deriving DecidableEq, Repr

/-- A call of a public method of `MusicPlayer`: an action, or `SetState`
(line 52) with its argument. -/
inductive Call where
  | action (a : Action)
  | SetState (state : MusicPlayer.State)
  deriving DecidableEq, Repr

/-! ## Constructors and `GetName` -/

/-- The constructor `MusicPlayerState::MusicPlayerState(name)` (lines 60-62). -/
def MusicPlayerState.ctor (name : String) : MusicPlayerState :=
  { cls := StateClass.MusicPlayerState, m_name := name }

/-- The method `GetName()` (line 28). -/
def MusicPlayerState.GetName (self : MusicPlayerState) : String :=
  self.m_name

/-- The constructor `PlayingState::PlayingState()` (lines 96-98). -/
def PlayingState.ctor : MusicPlayerState :=
  { MusicPlayerState.ctor "Playing" with cls := StateClass.PlayingState }

/-- The constructor `PausedState::PausedState()` (lines 122-124). -/
def PausedState.ctor : MusicPlayerState :=
  { MusicPlayerState.ctor "Paused" with cls := StateClass.PausedState }

/-- The constructor `StoppedState::StoppedState()` (lines 147-149). -/
def StoppedState.ctor : MusicPlayerState :=
  { MusicPlayerState.ctor "Stopped" with cls := StateClass.StoppedState }

/-- The constructor `MusicPlayer::MusicPlayer()` (lines 160-163): it allocates a
`StoppedState` and writes nothing. -/
def MusicPlayer.ctor (w : String) : World :=
  { player := { m_pState := some StoppedState.ctor }, cout := w }

/-! ## Default methods of the base class (lines 67-80) -/

/-- The default `MusicPlayerState::Play` (lines 67-70). -/
def MusicPlayerState.Play (self : MusicPlayerState) (w : World) : Option World :=
  some { w with cout := w.cout ++ "Illegal state transition from " ++ self.GetName ++ " to Playing\n" }

/-- The default `MusicPlayerState::Pause` (lines 72-75). -/
def MusicPlayerState.Pause (self : MusicPlayerState) (w : World) : Option World :=
  some { w with cout := w.cout ++ "Illegal state transition from " ++ self.GetName ++ " to Paused\n" }

/-- The default `MusicPlayerState::Stop` (lines 77-80). -/
def MusicPlayerState.Stop (self : MusicPlayerState) (w : World) : Option World :=
  some { w with cout := w.cout ++ "Illegal state transition from " ++ self.GetName ++ " to Stopped\n" }

/-! ## `MusicPlayer::SetState` (lines 181-200) -/

/-- The method `MusicPlayer::SetState(state)`: write the first half of the line
with the old name, delete the old object, allocate the new one by the
`if`/`else if`/`else` chain, write the second half with the new name. -/
def MusicPlayer.SetState (state : MusicPlayer.State) (w : World) : Option World := do
  let old ← w.player.m_pState
  let w1 : World := { w with cout := w.cout ++ "changing from " ++ old.GetName ++ " to " }
  let w2 : World := { w1 with player := { m_pState := none } }
  let w3 : World :=
    if state = MusicPlayer.State.ST_STOPPED then
      { w2 with player := { m_pState := some StoppedState.ctor } }
    else if state = MusicPlayer.State.ST_PLAYING then
      { w2 with player := { m_pState := some PlayingState.ctor } }
    else
      { w2 with player := { m_pState := some PausedState.ctor } }
  let cur ← w3.player.m_pState
  some { w3 with cout := w3.cout ++ cur.GetName ++ " state\n" }

/-! ## Overrides of the subclasses -/

/-- The override `PlayingState::Pause` (lines 103-106). -/
def PlayingState.Pause (_self : MusicPlayerState) (w : World) : Option World :=
  MusicPlayer.SetState MusicPlayer.State.ST_PAUSED w

/-- The override `PlayingState::Stop` (lines 108-111). -/
def PlayingState.Stop (_self : MusicPlayerState) (w : World) : Option World :=
  MusicPlayer.SetState MusicPlayer.State.ST_STOPPED w

/-- The override `PausedState::Play` (lines 129-132). -/
def PausedState.Play (_self : MusicPlayerState) (w : World) : Option World :=
  MusicPlayer.SetState MusicPlayer.State.ST_PLAYING w

/-- The override `PausedState::Stop` (lines 134-137). -/
def PausedState.Stop (_self : MusicPlayerState) (w : World) : Option World :=
  MusicPlayer.SetState MusicPlayer.State.ST_STOPPED w

/-- The override `StoppedState::Play` (lines 154-157). -/
def StoppedState.Play (_self : MusicPlayerState) (w : World) : Option World :=
  MusicPlayer.SetState MusicPlayer.State.ST_PLAYING w

/-! ## Virtual dispatch

Each subclass declares the methods it overrides (lines 92-93, 118-119, 144);
every other call goes to the base class. -/

/-- A virtual call of `Play` on a state object. -/
def MusicPlayerState.virtualPlay (self : MusicPlayerState) (w : World) : Option World :=
  match self.cls with
  | StateClass.MusicPlayerState => MusicPlayerState.Play self w
  | StateClass.PlayingState => MusicPlayerState.Play self w
  | StateClass.PausedState => PausedState.Play self w
  | StateClass.StoppedState => StoppedState.Play self w

/-- A virtual call of `Pause` on a state object. -/
def MusicPlayerState.virtualPause (self : MusicPlayerState) (w : World) : Option World :=
  match self.cls with
  | StateClass.MusicPlayerState => MusicPlayerState.Pause self w
  | StateClass.PlayingState => PlayingState.Pause self w
  | StateClass.PausedState => MusicPlayerState.Pause self w
  | StateClass.StoppedState => MusicPlayerState.Pause self w

/-- A virtual call of `Stop` on a state object. -/
def MusicPlayerState.virtualStop (self : MusicPlayerState) (w : World) : Option World :=
  match self.cls with
  | StateClass.MusicPlayerState => MusicPlayerState.Stop self w
  | StateClass.PlayingState => PlayingState.Stop self w
  | StateClass.PausedState => PausedState.Stop self w
  | StateClass.StoppedState => MusicPlayerState.Stop self w

/-! ## Methods of `MusicPlayer` (lines 169-179) -/

/-- The method `MusicPlayer::Play()` (lines 169-171). -/
def MusicPlayer.Play (w : World) : Option World := do
  let s ← w.player.m_pState
  s.virtualPlay w

/-- The method `MusicPlayer::Pause()` (lines 173-175). -/
def MusicPlayer.Pause (w : World) : Option World := do
  let s ← w.player.m_pState
  s.virtualPause w

/-- The method `MusicPlayer::Stop()` (lines 177-179). -/
def MusicPlayer.Stop (w : World) : Option World := do
  let s ← w.player.m_pState
  s.virtualStop w

/-- Invoke the action method selected by `a`. -/
def MusicPlayer.act (a : Action) (w : World) : Option World :=
  match a with
  | Action.Play => MusicPlayer.Play w
  | Action.Pause => MusicPlayer.Pause w
  | Action.Stop => MusicPlayer.Stop w

/-- Invoke the public method selected by `c`. -/
def MusicPlayer.call (c : Call) (w : World) : Option World :=
  match c with
  | Call.action a => MusicPlayer.act a w
  | Call.SetState state => MusicPlayer.SetState state w

/-- Invoke a sequence of actions, in order, stopping at the first failure. -/
def runActions (as : List Action) (w : World) : Option World :=
  match as with
  | [] => some w
  | a :: rest => (MusicPlayer.act a w).bind (runActions rest)

/-- Invoke a sequence of public method calls, in order, stopping at the first
failure. -/
def runCalls (cs : List Call) (w : World) : Option World :=
  match cs with
  | [] => some w
  | c :: rest => (MusicPlayer.call c w).bind (runCalls rest)

/-- The function `main` (lines 204-215), started with `std::cout` empty. -/
def main : Option World := do
  let player := MusicPlayer.ctor ""
  let player ← MusicPlayer.Play player
  let player ← MusicPlayer.Play player
  let player ← MusicPlayer.Pause player
  let player ← MusicPlayer.Stop player
  some player

/-! ## Vocabulary of the specification

The definitions below are not code of the program: they are the words in which
the properties are stated (the kind of the current state, the transition table
of section 4.1 of the specification, the two message forms), to be compared
with what the code above computes. -/

/-- The state object of kind `k`, as the constructor of its subclass builds it. -/
def stateObject (k : MusicPlayer.State) : MusicPlayerState :=
  match k with
  | MusicPlayer.State.ST_STOPPED => StoppedState.ctor
  | MusicPlayer.State.ST_PLAYING => PlayingState.ctor
  | MusicPlayer.State.ST_PAUSED => PausedState.ctor

/-- The player whose current state is of kind `k`. -/
def playerIn (k : MusicPlayer.State) : MusicPlayer :=
  { m_pState := some (stateObject k) }

/-- The program state in which the player holds a state of kind `k` and `out` is
the text written so far. -/
def inState (k : MusicPlayer.State) (out : String) : World :=
  { player := playerIn k, cout := out }

/-- The display name of a kind of state, as the specification gives it. -/
def kindName (k : MusicPlayer.State) : String :=
  match k with
  | MusicPlayer.State.ST_STOPPED => "Stopped"
  | MusicPlayer.State.ST_PLAYING => "Playing"
  | MusicPlayer.State.ST_PAUSED => "Paused"

/-- The name of the state an action asks for: "Playing" for Play, "Paused" for
Pause, "Stopped" for Stop. -/
def targetName (a : Action) : String :=
  match a with
  | Action.Play => "Playing"
  | Action.Pause => "Paused"
  | Action.Stop => "Stopped"

/-- The transition table of section 4.1 of the specification: the target of a
legal pair, `none` for an illegal pair. -/
def specTable (s : MusicPlayer.State) (a : Action) : Option MusicPlayer.State :=
  match s, a with
  | MusicPlayer.State.ST_STOPPED, Action.Play => some MusicPlayer.State.ST_PLAYING
  | MusicPlayer.State.ST_STOPPED, Action.Pause => none
  | MusicPlayer.State.ST_STOPPED, Action.Stop => none
  | MusicPlayer.State.ST_PLAYING, Action.Play => none
  | MusicPlayer.State.ST_PLAYING, Action.Pause => some MusicPlayer.State.ST_PAUSED
  | MusicPlayer.State.ST_PLAYING, Action.Stop => some MusicPlayer.State.ST_STOPPED
  | MusicPlayer.State.ST_PAUSED, Action.Play => some MusicPlayer.State.ST_PLAYING
  | MusicPlayer.State.ST_PAUSED, Action.Pause => none
  | MusicPlayer.State.ST_PAUSED, Action.Stop => some MusicPlayer.State.ST_STOPPED

/-- The message of a state change, with its newline. -/
def changingMsg (old new : MusicPlayer.State) : String :=
  "changing from " ++ kindName old ++ " to " ++ kindName new ++ " state\n"

/-- The message of an illegal action, with its newline. -/
def illegalMsg (s : MusicPlayer.State) (a : Action) : String :=
  "Illegal state transition from " ++ kindName s ++ " to " ++ targetName a ++ "\n"

/-- The state the table prescribes after action `a` in state `s`. -/
def specNext (s : MusicPlayer.State) (a : Action) : MusicPlayer.State :=
  (specTable s a).getD s

/-- The message the table prescribes for action `a` in state `s`. -/
def specMsg (s : MusicPlayer.State) (a : Action) : String :=
  match specTable s a with
  | some t => changingMsg s t
  | none => illegalMsg s a

/-- A text is one newline-terminated line: its last character is the newline and
it holds no other newline. -/
def isLine (m : String) : Bool :=
  m.data.getLast? == some '\n' && m.data.count '\n' == 1

/-- The state the table prescribes after a sequence of actions from state `s`. -/
def specRun (s : MusicPlayer.State) (as : List Action) : MusicPlayer.State :=
  match as with
  | [] => s
  | a :: rest => specRun (specNext s a) rest

/-- The messages the table prescribes for a sequence of actions from state `s`,
one for each action. -/
def specTrace (s : MusicPlayer.State) (as : List Action) : List String :=
  match as with
  | [] => []
  | a :: rest => specMsg s a :: specTrace (specNext s a) rest

/-- The table-driven dispatch of the design notes of the specification
(section 9): the player is a tag and the text written so far, and one function
holds the table of section 4.1; it returns the new tag and the new text. -/
def tableDispatch (s : MusicPlayer.State) (a : Action) (out : String) :
    MusicPlayer.State × String :=
  match s, a with
  | MusicPlayer.State.ST_STOPPED, Action.Play =>
    (MusicPlayer.State.ST_PLAYING, out ++ "changing from Stopped to Playing state\n")
  | MusicPlayer.State.ST_STOPPED, Action.Pause =>
    (MusicPlayer.State.ST_STOPPED, out ++ "Illegal state transition from Stopped to Paused\n")
  | MusicPlayer.State.ST_STOPPED, Action.Stop =>
    (MusicPlayer.State.ST_STOPPED, out ++ "Illegal state transition from Stopped to Stopped\n")
  | MusicPlayer.State.ST_PLAYING, Action.Play =>
    (MusicPlayer.State.ST_PLAYING, out ++ "Illegal state transition from Playing to Playing\n")
  | MusicPlayer.State.ST_PLAYING, Action.Pause =>
    (MusicPlayer.State.ST_PAUSED, out ++ "changing from Playing to Paused state\n")
  | MusicPlayer.State.ST_PLAYING, Action.Stop =>
    (MusicPlayer.State.ST_STOPPED, out ++ "changing from Playing to Stopped state\n")
  | MusicPlayer.State.ST_PAUSED, Action.Play =>
    (MusicPlayer.State.ST_PLAYING, out ++ "changing from Paused to Playing state\n")
  | MusicPlayer.State.ST_PAUSED, Action.Pause =>
    (MusicPlayer.State.ST_PAUSED, out ++ "Illegal state transition from Paused to Paused\n")
  | MusicPlayer.State.ST_PAUSED, Action.Stop =>
    (MusicPlayer.State.ST_STOPPED, out ++ "changing from Paused to Stopped state\n")

/-- A message is a "changing" message: it begins with "changing from ". -/
def isChangingMsg (m : String) : Bool :=
  "changing from ".data.isPrefixOf m.data

/-- A message is an "Illegal state transition" message: it begins with
"Illegal state transition from ". -/
def isIllegalMsg (m : String) : Bool :=
  "Illegal state transition from ".data.isPrefixOf m.data

/-- A message reports a change to Paused: it is a "changing" message that ends
with " to Paused state" and the newline. -/
def isChangingToPaused (m : String) : Bool :=
  isChangingMsg m && " to Paused state\n".data.isSuffixOf m.data

/-- Cut a text into the pieces that end at each occurrence of `sep`; a last piece
without `sep` after it is kept. -/
def splitAtChar (sep : Char) (cs : List Char) : List (List Char) :=
  match cs with
  | [] => []
  | c :: rest =>
    if c = sep then [] :: splitAtChar sep rest
    else
      match splitAtChar sep rest with
      | [] => [[c]]
      | piece :: pieces => (c :: piece) :: pieces

/-- The lines of an output text, without their newlines. -/
def outputLines (text : String) : List String :=
  (splitAtChar '\n' text.data).map String.mk

/-- The kind of state a display name stands for. -/
def kindOfName (name : String) : Option MusicPlayer.State :=
  if name = "Stopped" then some MusicPlayer.State.ST_STOPPED
  else if name = "Playing" then some MusicPlayer.State.ST_PLAYING
  else if name = "Paused" then some MusicPlayer.State.ST_PAUSED
  else none

/-- The state an output line reports as current, read from the line alone: the
name after "to" in a "changing from X to Y state" line, the name after "from" in
an "Illegal state transition from X to Y" line. -/
def stateOfLine (line : String) : Option MusicPlayer.State :=
  match (splitAtChar ' ' line.data).map String.mk with
  | [w1, w2, _, w4, y, w6] =>
    if w1 = "changing" ∧ w2 = "from" ∧ w4 = "to" ∧ w6 = "state" then kindOfName y else none
  | [w1, w2, w3, w4, x, w6, _] =>
    if w1 = "Illegal" ∧ w2 = "state" ∧ w3 = "transition" ∧ w4 = "from" ∧ w6 = "to" then
      kindOfName x
    else none
  | _ => none

/-! ## Basic facts -/

theorem join_cons (m : String) (ms : List String) :
    String.join (m :: ms) = m ++ String.join ms := by
  apply String.ext
  simp [String.data_join]

theorem join_append (ms ns : List String) :
    String.join (ms ++ ns) = String.join ms ++ String.join ns := by
  apply String.ext
  simp [String.data_join]

theorem ctor_eq_inState (out : String) :
    MusicPlayer.ctor out = inState MusicPlayer.State.ST_STOPPED out := rfl

theorem setState_inState (s k : MusicPlayer.State) (out : String) :
    MusicPlayer.SetState k (inState s out) = some (inState k (out ++ changingMsg s k)) := by
  cases s <;> cases k <;>
    simp [MusicPlayer.SetState, inState, playerIn, stateObject, changingMsg, kindName,
      MusicPlayerState.GetName, StoppedState.ctor, PlayingState.ctor, PausedState.ctor,
      MusicPlayerState.ctor, String.append_assoc]

theorem act_inState (s : MusicPlayer.State) (a : Action) (out : String) :
    MusicPlayer.act a (inState s out) = some (inState (specNext s a) (out ++ specMsg s a)) := by
  cases s <;> cases a <;>
    simp [MusicPlayer.act, MusicPlayer.Play, MusicPlayer.Pause, MusicPlayer.Stop,
      MusicPlayerState.virtualPlay, MusicPlayerState.virtualPause, MusicPlayerState.virtualStop,
      MusicPlayerState.Play, MusicPlayerState.Pause, MusicPlayerState.Stop,
      PlayingState.Pause, PlayingState.Stop, PausedState.Play, PausedState.Stop, StoppedState.Play,
      MusicPlayer.SetState, inState, playerIn, stateObject, changingMsg, illegalMsg, kindName,
      targetName, specNext, specMsg, specTable,
      MusicPlayerState.GetName, StoppedState.ctor, PlayingState.ctor, PausedState.ctor,
      MusicPlayerState.ctor, String.append_assoc]

theorem specMsg_isLine (s : MusicPlayer.State) (a : Action) : isLine (specMsg s a) = true := by
  cases s <;> cases a <;> decide

theorem changingMsg_isLine (s k : MusicPlayer.State) : isLine (changingMsg s k) = true := by
  cases s <;> cases k <;> decide

theorem runActions_inState (as : List Action) (s : MusicPlayer.State) (out : String) :
    runActions as (inState s out)
      = some (inState (specRun s as) (out ++ String.join (specTrace s as))) := by
  induction as generalizing s out with
  | nil => simp [runActions, specRun, specTrace, String.join]
  | cons a rest ih =>
    simp [runActions, act_inState, ih, specRun, specTrace, join_cons, String.append_assoc]

theorem specTrace_length (as : List Action) (s : MusicPlayer.State) :
    (specTrace s as).length = as.length := by
  induction as generalizing s with
  | nil => rfl
  | cons a rest ih => simp [specTrace, ih]

theorem specTrace_isLine (as : List Action) (s : MusicPlayer.State) :
    ∀ m ∈ specTrace s as, isLine m = true := by
  induction as generalizing s with
  | nil => simp [specTrace]
  | cons a rest ih =>
    intro m hm
    simp only [specTrace, List.mem_cons] at hm
    rcases hm with rfl | hm
    · exact specMsg_isLine s a
    · exact ih _ m hm

theorem specTrace_getD (as : List Action) (s : MusicPlayer.State) (i : Nat)
    (h : i < as.length) :
    (specTrace s as).getD i "" = specMsg (specRun s (as.take i)) as[i] := by
  induction as generalizing s i with
  | nil => simp at h
  | cons a rest ih =>
    cases i with
    | zero => simp [specTrace, specRun]
    | succ j =>
      have hj : j < rest.length := by simpa using h
      simpa [specTrace, specRun] using ih (specNext s a) j hj

theorem call_inState (c : Call) (s : MusicPlayer.State) (out : String) :
    ∃ k text, MusicPlayer.call c (inState s out) = some (inState k (out ++ text)) := by
  cases c with
  | action a => exact ⟨specNext s a, specMsg s a, by simp [MusicPlayer.call, act_inState]⟩
  | SetState k => exact ⟨k, changingMsg s k, by simp [MusicPlayer.call, setState_inState]⟩

theorem runCalls_inState (cs : List Call) (s : MusicPlayer.State) (out : String) :
    ∃ k text, runCalls cs (inState s out) = some (inState k (out ++ text)) := by
  induction cs generalizing s out with
  | nil => exact ⟨s, "", by simp [runCalls]⟩
  | cons c rest ih =>
    obtain ⟨k, text, hc⟩ := call_inState c s out
    obtain ⟨k2, text2, hr⟩ := ih k (out ++ text)
    exact ⟨k2, text ++ text2, by simp [runCalls, hc, hr, String.append_assoc]⟩

theorem stateObject_wellFormed (k : MusicPlayer.State) :
    ((stateObject k).cls = StateClass.StoppedState ∧ (stateObject k).GetName = "Stopped") ∨
    ((stateObject k).cls = StateClass.PlayingState ∧ (stateObject k).GetName = "Playing") ∨
    ((stateObject k).cls = StateClass.PausedState ∧ (stateObject k).GetName = "Paused") := by
  cases k <;> decide

/-! ## The transition contract -/

/-- C1: for every current state and every action, the state of the player after
the action method is the one of the transition table: the five legal pairs move
to their target, the four remaining pairs leave the state as it was. -/
theorem C1_transition_table (out : String) :
    (MusicPlayer.act Action.Play (inState MusicPlayer.State.ST_STOPPED out)).map World.player
        = some (playerIn MusicPlayer.State.ST_PLAYING) ∧
    (MusicPlayer.act Action.Pause (inState MusicPlayer.State.ST_PLAYING out)).map World.player
        = some (playerIn MusicPlayer.State.ST_PAUSED) ∧
    (MusicPlayer.act Action.Stop (inState MusicPlayer.State.ST_PLAYING out)).map World.player
        = some (playerIn MusicPlayer.State.ST_STOPPED) ∧
    (MusicPlayer.act Action.Play (inState MusicPlayer.State.ST_PAUSED out)).map World.player
        = some (playerIn MusicPlayer.State.ST_PLAYING) ∧
    (MusicPlayer.act Action.Stop (inState MusicPlayer.State.ST_PAUSED out)).map World.player
        = some (playerIn MusicPlayer.State.ST_STOPPED) ∧
    (MusicPlayer.act Action.Pause (inState MusicPlayer.State.ST_STOPPED out)).map World.player
        = some (playerIn MusicPlayer.State.ST_STOPPED) ∧
    (MusicPlayer.act Action.Stop (inState MusicPlayer.State.ST_STOPPED out)).map World.player
        = some (playerIn MusicPlayer.State.ST_STOPPED) ∧
    (MusicPlayer.act Action.Play (inState MusicPlayer.State.ST_PLAYING out)).map World.player
        = some (playerIn MusicPlayer.State.ST_PLAYING) ∧
    (MusicPlayer.act Action.Pause (inState MusicPlayer.State.ST_PAUSED out)).map World.player
        = some (playerIn MusicPlayer.State.ST_PAUSED) := by
  simp only [act_inState, Option.map_some']
  refine ⟨?_, ?_, ?_, ?_, ?_, ?_, ?_, ?_, ?_⟩ <;> rfl

/-- C2: for every current state and action, the text the action method writes
is one of two forms: the "changing" line naming the old and the new state when
the pair is legal in the table, and otherwise the "Illegal state transition"
line naming the current state and the state the action asks for; so Pause from
Stopped reports "Illegal state transition from Stopped to Paused". -/
theorem C2_message_forms (s : MusicPlayer.State) (a : Action) (out : String) :
    (MusicPlayer.act a (inState s out)).map World.cout
        = some (out ++
            match specTable s a with
            | some t => "changing from " ++ kindName s ++ " to " ++ kindName t ++ " state\n"
            | none => "Illegal state transition from " ++ kindName s ++ " to "
                        ++ targetName a ++ "\n") ∧
    (MusicPlayer.act Action.Pause (inState MusicPlayer.State.ST_STOPPED out)).map World.cout
        = some (out ++ "Illegal state transition from Stopped to Paused\n") := by
  simp only [act_inState, Option.map_some']
  exact ⟨rfl, rfl⟩

/-- C3: an action that is illegal in a state, invoked any number of times in a
row from that state, leaves the player in that state after each call and writes
one identical "Illegal state transition" line for each call, and nothing else. -/
theorem C3_illegal_idempotent (s : MusicPlayer.State) (a : Action) (out : String)
    (hillegal : specTable s a = none) (n : Nat) :
    runActions (List.replicate n a) (inState s out)
      = some (inState s (out ++ String.join (List.replicate n
          ("Illegal state transition from " ++ kindName s ++ " to " ++ targetName a ++ "\n")))) := by
  have hnext : specNext s a = s := by simp [specNext, hillegal]
  have hmsg : specMsg s a
      = "Illegal state transition from " ++ kindName s ++ " to " ++ targetName a ++ "\n" := by
    simp [specMsg, hillegal, illegalMsg]
  induction n generalizing out with
  | zero => simp [runActions, String.join]
  | succ k ih =>
    simp only [List.replicate_succ, runActions, act_inState, hnext, Option.some_bind, ih,
      join_cons, hmsg, String.append_assoc]

/-- The witness of C3: Play, illegal in Playing, invoked three times. -/
theorem C3_illegal_idempotent_witness :
    specTable MusicPlayer.State.ST_PLAYING Action.Play = none ∧
    runActions [Action.Play, Action.Play, Action.Play] (inState MusicPlayer.State.ST_PLAYING "")
      = some (inState MusicPlayer.State.ST_PLAYING
          "Illegal state transition from Playing to Playing\nIllegal state transition from Playing to Playing\nIllegal state transition from Playing to Playing\n") :=
  ⟨by decide, C3_illegal_idempotent MusicPlayer.State.ST_PLAYING Action.Play "" (by decide) 3⟩

/-- C4: for every current state and every requested kind, allowed by the table
or not and equal to the current one or not, SetState leaves the player in the
requested state and writes exactly one line, "changing from old to new state",
where old is the name of the state held before the call. -/
theorem C4_setState (s k : MusicPlayer.State) (out : String) :
    MusicPlayer.SetState k (inState s out)
      = some (inState k
          (out ++ ("changing from " ++ kindName s ++ " to " ++ kindName k ++ " state\n"))) ∧
    isLine ("changing from " ++ kindName s ++ " to " ++ kindName k ++ " state\n") = true :=
  ⟨setState_inState s k out, changingMsg_isLine s k⟩

/-- C5: a newly constructed player holds a state object of class StoppedState
whose name is "Stopped", and the constructor writes nothing. -/
theorem C5_initial_state (out : String) :
    (MusicPlayer.ctor out).player = playerIn MusicPlayer.State.ST_STOPPED ∧
    (MusicPlayer.ctor out).player.m_pState.map MusicPlayerState.cls
      = some StateClass.StoppedState ∧
    (MusicPlayer.ctor out).player.m_pState.map MusicPlayerState.GetName = some "Stopped" ∧
    (MusicPlayer.ctor out).cout = out :=
  ⟨rfl, rfl, rfl, rfl⟩

/-- C6: the demonstration of main, Play, Play, Pause, Stop on a new player, ends
in Stopped and writes the four lines changing Stopped to Playing, illegal
Playing to Playing, changing Playing to Paused, changing Paused to Stopped; the
states after each call are Playing, Playing, Paused, Stopped. -/
theorem C6_demonstration :
    main = runActions [Action.Play, Action.Play, Action.Pause, Action.Stop] (MusicPlayer.ctor "") ∧
    main = some (inState MusicPlayer.State.ST_STOPPED
      "changing from Stopped to Playing state\nIllegal state transition from Playing to Playing\nchanging from Playing to Paused state\nchanging from Paused to Stopped state\n") ∧
    runActions [Action.Play] (MusicPlayer.ctor "")
      = some (inState MusicPlayer.State.ST_PLAYING "changing from Stopped to Playing state\n") ∧
    runActions [Action.Play, Action.Play] (MusicPlayer.ctor "")
      = some (inState MusicPlayer.State.ST_PLAYING
          "changing from Stopped to Playing state\nIllegal state transition from Playing to Playing\n") ∧
    runActions [Action.Play, Action.Play, Action.Pause] (MusicPlayer.ctor "")
      = some (inState MusicPlayer.State.ST_PAUSED
          "changing from Stopped to Playing state\nIllegal state transition from Playing to Playing\nchanging from Playing to Paused state\n") := by
  refine ⟨?_, ?_, ?_, ?_, ?_⟩ <;> rfl

/-! ## Invariant, totality and determinism -/

/-- C7: after any finite sequence of Play, Pause, Stop and SetState calls on a
newly constructed player, every call has returned, the pointer to the current
state holds an object, that object is of one of the three subclasses, and its
name is the string of that subclass: "Stopped", "Playing" or "Paused". -/
theorem C7_state_invariant (cs : List Call) (out : String) :
    ∃ w s, runCalls cs (MusicPlayer.ctor out) = some w ∧ w.player.m_pState = some s ∧
      ((s.cls = StateClass.StoppedState ∧ s.GetName = "Stopped") ∨
       (s.cls = StateClass.PlayingState ∧ s.GetName = "Playing") ∨
       (s.cls = StateClass.PausedState ∧ s.GetName = "Paused")) := by
  obtain ⟨k, text, h⟩ := runCalls_inState cs MusicPlayer.State.ST_STOPPED out
  exact ⟨inState k (out ++ text), stateObject k, by rw [ctor_eq_inState, h], rfl,
    stateObject_wellFormed k⟩

/-- C8: from every start state, every finite sequence of actions runs to the end
without failure, and the text it writes is one newline-terminated line for each
action, in order: the i-th line is what the i-th action wrote in the state the
first i actions led to. -/
theorem C8_one_line_per_action (s : MusicPlayer.State) (as : List Action) (out : String) :
    ∃ w msgs, runActions as (inState s out) = some w ∧
      msgs.length = as.length ∧
      w.cout = out ++ String.join msgs ∧
      (∀ m ∈ msgs, isLine m = true) ∧
      ∀ (i : Nat) (h : i < as.length), ∃ wi wi2,
        runActions (as.take i) (inState s out) = some wi ∧
        MusicPlayer.act as[i] wi = some wi2 ∧
        wi2.cout = wi.cout ++ msgs.getD i "" := by
  refine ⟨_, specTrace s as, runActions_inState as s out, specTrace_length as s, rfl,
    specTrace_isLine as s, ?_⟩
  intro i h
  refine ⟨_, _, runActions_inState (as.take i) s out, act_inState _ _ _, ?_⟩
  rw [specTrace_getD as s i h]
  rfl

/-- The witness of C8: the sequence Play, Pause, Pause from Stopped. -/
theorem C8_one_line_per_action_witness :
    ∃ w msgs,
      runActions [Action.Play, Action.Pause, Action.Pause] (inState MusicPlayer.State.ST_STOPPED "")
        = some w ∧
      msgs.length = [Action.Play, Action.Pause, Action.Pause].length ∧
      w.cout = "" ++ String.join msgs ∧
      (∀ m ∈ msgs, isLine m = true) ∧
      ∀ (i : Nat) (h : i < [Action.Play, Action.Pause, Action.Pause].length), ∃ wi wi2,
        runActions ([Action.Play, Action.Pause, Action.Pause].take i)
          (inState MusicPlayer.State.ST_STOPPED "") = some wi ∧
        MusicPlayer.act [Action.Play, Action.Pause, Action.Pause][i] wi = some wi2 ∧
        wi2.cout = wi.cout ++ msgs.getD i "" :=
  C8_one_line_per_action MusicPlayer.State.ST_STOPPED [Action.Play, Action.Pause, Action.Pause] ""

/-- C9: the machine has no terminal state: in every state some action is legal
in the table and moves the player to a different state. -/
theorem C9_no_terminal_state (s : MusicPlayer.State) (out : String) :
    ∃ a t, specTable s a = some t ∧ t ≠ s ∧
      (MusicPlayer.act a (inState s out)).map World.player = some (playerIn t) ∧
      playerIn t ≠ playerIn s := by
  cases s
  · exact ⟨Action.Play, MusicPlayer.State.ST_PLAYING, rfl, by decide,
      by rw [act_inState]; rfl, by decide⟩
  · exact ⟨Action.Pause, MusicPlayer.State.ST_PAUSED, rfl, by decide,
      by rw [act_inState]; rfl, by decide⟩
  · exact ⟨Action.Play, MusicPlayer.State.ST_PLAYING, rfl, by decide,
      by rw [act_inState]; rfl, by decide⟩

/-- C10: determinism: the state a sequence of actions ends in and the text it
writes are fixed by the start state and the sequence alone; every run of the
sequence from that state, whatever was written before, ends in that state and
appends that text. -/
theorem C10_determinism (s : MusicPlayer.State) (as : List Action) :
    ∃ t text, ∀ out : String,
      runActions as (inState s out) = some (inState t (out ++ text)) :=
  ⟨specRun s as, String.join (specTrace s as), fun out => runActions_inState as s out⟩

/-! ## Dispatch by table, and what Play and Stop do in every state -/

theorem runActions_append (as bs : List Action) (w : World) :
    runActions (as ++ bs) w = (runActions as w).bind (runActions bs) := by
  induction as generalizing w with
  | nil => simp [runActions]
  | cons a rest ih =>
    simp only [List.cons_append, runActions]
    cases MusicPlayer.act a w with
    | none => rfl
    | some w2 => simpa using ih w2

theorem specNext_twice (s : MusicPlayer.State) (a : Action) :
    specNext (specNext s a) a = specNext s a := by
  cases s <;> cases a <;> rfl

theorem specTable_after (s : MusicPlayer.State) (a : Action) :
    specTable (specNext s a) a = none := by
  cases s <;> cases a <;> rfl

/-- C11: the dispatch through the class hierarchy (defaults of the base class,
overrides of the three subclasses, each calling SetState) and the single
table-driven dispatch function over the tag agree: for every state, action and
text written so far, the action method returns, the player then holds the state
object of the tag the table gives, and the output is the text the table gives. -/
theorem C11_table_dispatch_agrees (s : MusicPlayer.State) (a : Action) (out : String) :
    MusicPlayer.act a (inState s out)
      = some (inState (tableDispatch s a out).1 (tableDispatch s a out).2) := by
  rw [act_inState]
  cases s <;> cases a <;> rfl

/-- C12: Play and Stop fix the resulting state: from every state the state after
Play is Playing and the state after Stop is Stopped, so a sequence of actions
that ends with Play ends in Playing and one that ends with Stop ends in Stopped,
whatever came before; Pause does not: from Stopped the state after Pause is
Stopped, which is not Paused. -/
theorem C12_play_stop_fix_state (s : MusicPlayer.State) (as : List Action) (out : String) :
    (MusicPlayer.act Action.Play (inState s out)).map World.player
      = some (playerIn MusicPlayer.State.ST_PLAYING) ∧
    (MusicPlayer.act Action.Stop (inState s out)).map World.player
      = some (playerIn MusicPlayer.State.ST_STOPPED) ∧
    (runActions (as ++ [Action.Play]) (inState s out)).map World.player
      = some (playerIn MusicPlayer.State.ST_PLAYING) ∧
    (runActions (as ++ [Action.Stop]) (inState s out)).map World.player
      = some (playerIn MusicPlayer.State.ST_STOPPED) ∧
    (MusicPlayer.act Action.Pause (inState MusicPlayer.State.ST_STOPPED out)).map World.player
      = some (playerIn MusicPlayer.State.ST_STOPPED) ∧
    playerIn MusicPlayer.State.ST_STOPPED ≠ playerIn MusicPlayer.State.ST_PAUSED := by
  have hplay : ∀ k : MusicPlayer.State, specNext k Action.Play = MusicPlayer.State.ST_PLAYING := by
    intro k; cases k <;> rfl
  have hstop : ∀ k : MusicPlayer.State, specNext k Action.Stop = MusicPlayer.State.ST_STOPPED := by
    intro k; cases k <;> rfl
  refine ⟨?_, ?_, ?_, ?_, ?_, by decide⟩
  · rw [act_inState, hplay]; rfl
  · rw [act_inState, hstop]; rfl
  · rw [runActions_append, runActions_inState]
    simp only [Option.some_bind, runActions, act_inState, hplay]
    rfl
  · rw [runActions_append, runActions_inState]
    simp only [Option.some_bind, runActions, act_inState, hstop]
    rfl
  · rw [act_inState]; rfl

/-- C13: every action is idempotent on the state and its immediate repetition is
illegal: the second of two invocations in a row leaves the state the first one
produced and writes the "Illegal state transition" line of that state, not a
"changing" line. -/
theorem C13_repetition_illegal (s : MusicPlayer.State) (a : Action) (out : String) :
    ∃ t m1 m2,
      MusicPlayer.act a (inState s out) = some (inState t (out ++ m1)) ∧
      MusicPlayer.act a (inState t (out ++ m1)) = some (inState t (out ++ m1 ++ m2)) ∧
      runActions [a, a] (inState s out) = some (inState t (out ++ m1 ++ m2)) ∧
      m2 = "Illegal state transition from " ++ kindName t ++ " to " ++ targetName a ++ "\n" ∧
      isIllegalMsg m2 = true ∧ isChangingMsg m2 = false := by
  have h2 : MusicPlayer.act a (inState (specNext s a) (out ++ specMsg s a))
      = some (inState (specNext s a) (out ++ specMsg s a ++ specMsg (specNext s a) a)) := by
    rw [act_inState, specNext_twice]
  refine ⟨specNext s a, specMsg s a, specMsg (specNext s a) a, act_inState s a out, h2, ?_, ?_, ?_, ?_⟩
  · simp only [runActions, act_inState, Option.some_bind, specNext_twice]
  · simp only [specMsg, specTable_after, illegalMsg]
  · cases s <;> cases a <;> decide
  · cases s <;> cases a <;> decide

/-! ## What the output tells about the state -/

theorem specMsg_changing_iff (s : MusicPlayer.State) (a : Action) :
    specNext s a ≠ s ↔ isChangingMsg (specMsg s a) = true := by
  cases s <;> cases a <;> decide

theorem specMsg_changing_form (s : MusicPlayer.State) (a : Action)
    (h : isChangingMsg (specMsg s a) = true) :
    specMsg s a = changingMsg s (specNext s a) ∧ kindName s ≠ kindName (specNext s a) := by
  revert h
  cases s <;> cases a <;> decide

theorem specMsg_toPaused (s : MusicPlayer.State) (a : Action)
    (h : isChangingToPaused (specMsg s a) = true) :
    s = MusicPlayer.State.ST_PLAYING ∧ specMsg s a = "changing from Playing to Paused state\n" := by
  revert h
  cases s <;> cases a <;> decide

theorem specNext_toPaused (s : MusicPlayer.State) (a : Action)
    (h : specNext s a = MusicPlayer.State.ST_PAUSED) (hs : s ≠ MusicPlayer.State.ST_PAUSED) :
    s = MusicPlayer.State.ST_PLAYING := by
  revert h hs
  cases s <;> cases a <;> decide

theorem playerIn_injective (s t : MusicPlayer.State) : playerIn s = playerIn t ↔ s = t := by
  cases s <;> cases t <;> decide

/-- C14: an action changes the state exactly when it reports a change: the state
after the action differs from the state before if and only if the line written
is a "changing" line, and such a line written by an action names two different
states; a direct SetState to the current state, though, writes "changing from X
to X state". -/
theorem C14_change_iff_reported (s : MusicPlayer.State) (a : Action) (out : String) :
    (∃ t m,
      MusicPlayer.act a (inState s out) = some (inState t (out ++ m)) ∧
      (playerIn t ≠ playerIn s ↔ isChangingMsg m = true) ∧
      (isChangingMsg m = true →
        m = "changing from " ++ kindName s ++ " to " ++ kindName t ++ " state\n" ∧
        kindName s ≠ kindName t)) ∧
    MusicPlayer.SetState s (inState s out)
      = some (inState s
          (out ++ ("changing from " ++ kindName s ++ " to " ++ kindName s ++ " state\n"))) ∧
    isChangingMsg ("changing from " ++ kindName s ++ " to " ++ kindName s ++ " state\n") = true := by
  refine ⟨⟨specNext s a, specMsg s a, act_inState s a out, ?_, ?_⟩, setState_inState s s out, ?_⟩
  · rw [← specMsg_changing_iff, Ne, playerIn_injective]
  · intro h
    exact specMsg_changing_form s a h
  · cases s <;> decide

/-- C15: reachability through actions alone: from every state every state is
reached by one or two actions, each of them writing a "changing" line; no single
action leads from Stopped to Paused;
and in any run of actions a step into Paused starts in Playing, the only
"changing" line that ends in "to Paused state" being "changing from Playing to
Paused state". -/
theorem C15_reachability :
    (∀ s t : MusicPlayer.State, ∃ (as : List Action) (msgs : List String),
      1 ≤ as.length ∧ as.length ≤ 2 ∧ msgs.length = as.length ∧
      (∀ m ∈ msgs, isChangingMsg m = true) ∧
      ∀ out : String, runActions as (inState s out) = some (inState t (out ++ String.join msgs))) ∧
    (∀ (a : Action) (out : String),
      (MusicPlayer.act a (inState MusicPlayer.State.ST_STOPPED out)).map World.player
        ≠ some (playerIn MusicPlayer.State.ST_PAUSED)) ∧
    (∀ (s : MusicPlayer.State) (as : List Action) (out : String) (i : Nat) (h : i < as.length),
      ∃ k t text m,
        runActions (as.take i) (inState s out) = some (inState k (out ++ text)) ∧
        MusicPlayer.act as[i] (inState k (out ++ text)) = some (inState t (out ++ text ++ m)) ∧
        (t = MusicPlayer.State.ST_PAUSED → k ≠ MusicPlayer.State.ST_PAUSED →
          k = MusicPlayer.State.ST_PLAYING) ∧
        (isChangingToPaused m = true →
          k = MusicPlayer.State.ST_PLAYING ∧ m = "changing from Playing to Paused state\n")) := by
  refine ⟨?_, ?_, ?_⟩
  · intro s t
    have hrun : ∀ (as : List Action) (out : String),
        runActions as (inState s out)
          = some (inState (specRun s as) (out ++ String.join (specTrace s as))) :=
      fun as out => runActions_inState as s out
    cases s <;> cases t
    · exact ⟨[Action.Play, Action.Stop], specTrace _ _, by decide, by decide, by decide,
        by decide, fun out => hrun _ out⟩
    · exact ⟨[Action.Play], specTrace _ _, by decide, by decide, by decide,
        by decide, fun out => hrun _ out⟩
    · exact ⟨[Action.Play, Action.Pause], specTrace _ _, by decide, by decide, by decide,
        by decide, fun out => hrun _ out⟩
    · exact ⟨[Action.Stop], specTrace _ _, by decide, by decide, by decide,
        by decide, fun out => hrun _ out⟩
    · exact ⟨[Action.Pause, Action.Play], specTrace _ _, by decide, by decide, by decide,
        by decide, fun out => hrun _ out⟩
    · exact ⟨[Action.Pause], specTrace _ _, by decide, by decide, by decide,
        by decide, fun out => hrun _ out⟩
    · exact ⟨[Action.Stop], specTrace _ _, by decide, by decide, by decide,
        by decide, fun out => hrun _ out⟩
    · exact ⟨[Action.Play], specTrace _ _, by decide, by decide, by decide,
        by decide, fun out => hrun _ out⟩
    · exact ⟨[Action.Play, Action.Pause], specTrace _ _, by decide, by decide, by decide,
        by decide, fun out => hrun _ out⟩
  · intro a out
    rw [act_inState]
    cases a <;> simp [inState, specNext, specTable, playerIn_injective]
  · intro s as out i h
    refine ⟨specRun s (as.take i), specNext (specRun s (as.take i)) as[i],
      String.join (specTrace s (as.take i)), specMsg (specRun s (as.take i)) as[i],
      runActions_inState _ s out, act_inState _ _ _, ?_, ?_⟩
    · intro ht hk
      exact specNext_toPaused _ _ ht hk
    · intro hm
      exact specMsg_toPaused _ _ hm

/-- The witness of C15: the second step of Play, Pause from Stopped, the step
into Paused. -/
theorem C15_reachability_witness :
    ∃ k t text m,
      runActions ([Action.Play, Action.Pause].take 1) (inState MusicPlayer.State.ST_STOPPED "")
        = some (inState k ("" ++ text)) ∧
      MusicPlayer.act [Action.Play, Action.Pause][1] (inState k ("" ++ text))
        = some (inState t ("" ++ text ++ m)) ∧
      (t = MusicPlayer.State.ST_PAUSED → k ≠ MusicPlayer.State.ST_PAUSED →
        k = MusicPlayer.State.ST_PLAYING) ∧
      (isChangingToPaused m = true →
        k = MusicPlayer.State.ST_PLAYING ∧ m = "changing from Playing to Paused state\n") :=
  C15_reachability.2.2 MusicPlayer.State.ST_STOPPED [Action.Play, Action.Pause] "" 1 (by decide)

theorem splitAtChar_piece (sep : Char) (body rest : List Char) (h : sep ∉ body) :
    splitAtChar sep (body ++ sep :: rest) = body :: splitAtChar sep rest := by
  induction body with
  | nil => simp [splitAtChar]
  | cons c b ih =>
    have hc : c ≠ sep := fun e => h (by simp [e])
    have hb : sep ∉ b := fun e => h (by simp [e])
    simp [splitAtChar, hc, ih hb]

theorem specMsg_data (s : MusicPlayer.State) (a : Action) :
    (specMsg s a).data = (specMsg s a).data.dropLast ++ ['\n'] ∧
    '\n' ∉ (specMsg s a).data.dropLast := by
  cases s <;> cases a <;> decide

theorem outputLines_specTrace (as : List Action) (s : MusicPlayer.State) :
    outputLines (String.join (specTrace s as))
      = (specTrace s as).map (fun m => String.mk m.data.dropLast) := by
  induction as generalizing s with
  | nil => rfl
  | cons a rest ih =>
    have hd := (specMsg_data s a).1
    have hn := (specMsg_data s a).2
    have hsplit : splitAtChar '\n' ((specMsg s a).data ++ (String.join (specTrace (specNext s a) rest)).data)
        = (specMsg s a).data.dropLast
            :: splitAtChar '\n' (String.join (specTrace (specNext s a) rest)).data := by
      rw [hd, List.append_assoc]
      simpa using splitAtChar_piece '\n' _ _ hn
    have ih2 := ih (specNext s a)
    simp only [outputLines] at ih2
    simp only [specTrace, join_cons, outputLines, String.data_append, hsplit, List.map_cons, ih2]

theorem specTrace_getLast (as : List Action) (s : MusicPlayer.State) (h : as ≠ []) :
    ∃ k a, (specTrace s as).getLast? = some (specMsg k a) ∧ specRun s as = specNext k a := by
  induction as generalizing s with
  | nil => exact absurd rfl h
  | cons a rest ih =>
    cases rest with
    | nil => exact ⟨s, a, rfl, rfl⟩
    | cons b rest2 =>
      obtain ⟨k, c, hlast, hrun⟩ := ih (specNext s a) (by simp)
      refine ⟨k, c, ?_, ?_⟩
      · simpa [specTrace] using hlast
      · simpa [specRun] using hrun

theorem stateOfLine_specMsg (s : MusicPlayer.State) (a : Action) :
    stateOfLine (String.mk (specMsg s a).data.dropLast) = some (specNext s a) := by
  cases s <;> cases a <;> decide

/-- C16: the output is a faithful log of the state: the one line an action
writes gives the resulting state, read as the name after "to" in a "changing"
line and the name after "from" in an "Illegal state transition" line; so after
any non-empty sequence of actions the last line of the text written gives the
current state. -/
theorem C16_output_is_log :
    (∀ (s : MusicPlayer.State) (a : Action), ∃ t m line,
      (∀ out : String, MusicPlayer.act a (inState s out) = some (inState t (out ++ m))) ∧
      outputLines m = [line] ∧ stateOfLine line = some t) ∧
    (∀ (s : MusicPlayer.State) (as : List Action), as ≠ [] → ∃ t text line,
      (∀ out : String, runActions as (inState s out) = some (inState t (out ++ text))) ∧
      (outputLines text).length = as.length ∧
      (outputLines text).getLast? = some line ∧ stateOfLine line = some t) := by
  constructor
  · intro s a
    refine ⟨specNext s a, specMsg s a, String.mk (specMsg s a).data.dropLast,
      fun out => act_inState s a out, ?_, stateOfLine_specMsg s a⟩
    simpa [specTrace, join_cons, String.join] using outputLines_specTrace [a] s
  · intro s as has
    obtain ⟨k, a, hlast, hrun⟩ := specTrace_getLast as s has
    refine ⟨specRun s as, String.join (specTrace s as), String.mk (specMsg k a).data.dropLast,
      fun out => runActions_inState as s out, ?_, ?_, ?_⟩
    · simp [outputLines_specTrace, specTrace_length]
    · simp [outputLines_specTrace, List.getLast?_map, hlast]
    · rw [hrun]
      exact stateOfLine_specMsg k a

/-- The witness of C16: the sequence Play, Pause, Pause from Stopped. -/
theorem C16_output_is_log_witness :
    [Action.Play, Action.Pause, Action.Pause] ≠ [] ∧
    ∃ t text line,
      (∀ out : String,
        runActions [Action.Play, Action.Pause, Action.Pause]
          (inState MusicPlayer.State.ST_STOPPED out) = some (inState t (out ++ text))) ∧
      (outputLines text).length = [Action.Play, Action.Pause, Action.Pause].length ∧
      (outputLines text).getLast? = some line ∧ stateOfLine line = some t :=
  ⟨by decide, C16_output_is_log.2 MusicPlayer.State.ST_STOPPED
    [Action.Play, Action.Pause, Action.Pause] (by decide)⟩

end main2
